import Mathlib

/-!
Verification of the viewport gesture transform engine of
`platform/features/plot-reborn/src/directives/MCTPlot.js` and of the
summary-widget rule editor (`Rule.js`), as a shallow embedding in Lean.

Numbers are modelled by `ℚ` (the JavaScript source manipulates ordinary
numbers; the claims under study are about the real-number behaviour of the
arithmetic, not about binary floating point rounding). Absent JavaScript
values (`undefined`) are modelled by `Option`. Framework notifications
(`$scope.$emit`) are modelled by lists of emitted events returned alongside
the new state.
-/

/-- Constant `ZOOM_AMT = 0.02` (MCTPlot.js line 12). -/
def ZOOM_AMT : ℚ := 1/50

/-- Constant `PINCH_DRAG_AMT = 2` (MCTPlot.js line 13). -/
def PINCH_DRAG_AMT : ℚ := 2

/-- A plot-space point `{domain, range}`. -/
structure Point where
  domain : ℚ
  range : ℚ
deriving DecidableEq, Repr

/-- A viewport `{topLeft, bottomRight}` as bound on `$scope.viewport`. -/
structure Viewport where
  topLeft : Point
  bottomRight : Point
deriving DecidableEq, Repr

/-- The `{tl, br}` record built by `setDimensions` (MCTPlot.js 277–288). -/
structure Dimensions where
  tl : Point
  br : Point
deriving DecidableEq, Repr

/-- Notifications emitted through `$scope.$emit` that the claims mention:
`user:viewport:change:start` and `user:viewport:change:end` (with the new
viewport as payload). -/
inductive PlotEvent where
  | viewportChangeStart : PlotEvent
  | viewportChangeEnd : Viewport → PlotEvent
deriving DecidableEq, Repr

/-- Function `setDimensions(midpoint)` (MCTPlot.js 277–288): the absolute
per-axis distances from the midpoint to the two viewport corners. -/
def setDimensions (viewport : Viewport) (midpoint : Point) : Dimensions :=
  { tl := { domain := |midpoint.domain - viewport.topLeft.domain|
            range := |midpoint.range - viewport.topLeft.range| }
    br := { domain := |viewport.bottomRight.domain - midpoint.domain|
            range := |viewport.bottomRight.range - midpoint.range| } }

/-- Direction factor of `calculateViewport` (MCTPlot.js 294–295):
`checkRatio = (ratio - 1) || 0` and
`type = (-1 * (checkRatio / Math.abs(checkRatio))) || 1`.
Over `ℚ` the inner `|| 0` is inert (`ratio - 1` is never `NaN`).  When
`ratio = 1`, JavaScript evaluates `0 / Math.abs(0)` to `NaN`, `-1 * NaN` to
`NaN`, and `NaN || 1` to `1`, which the first branch models; for
`ratio ≠ 1` the quotient is `±1`, never `0` and never `NaN`, so the `|| 1`
fallback is inert and the value is `-1 * (checkRatio / |checkRatio|)`. -/
def zoomType (ratio : ℚ) : ℚ :=
  let checkRatio := ratio - 1
  if checkRatio = 0 then 1 else -1 * (checkRatio / |checkRatio|)

/-- Function `calculateViewport(midpoint, ratio)` (MCTPlot.js 290–316). -/
def calculateViewport (viewport : Viewport) (midpoint : Point) (ratio : ℚ) :
    Viewport :=
  let dimensions := setDimensions viewport midpoint
  let t := zoomType ratio
  let tl : Point := { domain := t * ZOOM_AMT * dimensions.tl.domain
                      range := t * ZOOM_AMT * dimensions.tl.range }
  let br : Point := { domain := t * ZOOM_AMT * dimensions.br.domain
                      range := t * ZOOM_AMT * dimensions.br.range }
  { topLeft := { domain := viewport.topLeft.domain + tl.domain
                 range := viewport.topLeft.range - tl.range }
    bottomRight := { domain := viewport.bottomRight.domain - br.domain
                     range := viewport.bottomRight.range + br.range } }

/-- Body of `calculateViewport` with the direction factor `type` fixed to
`+1`: the "shrink" step that the `|| 1` fallback selects. Named here to
state that `ratio = 1` behaves exactly as a direction-`+1` step. -/
def shrinkStep (viewport : Viewport) (midpoint : Point) : Viewport :=
  let dimensions := setDimensions viewport midpoint
  { topLeft := { domain := viewport.topLeft.domain + ZOOM_AMT * dimensions.tl.domain
                 range := viewport.topLeft.range - ZOOM_AMT * dimensions.tl.range }
    bottomRight := { domain := viewport.bottomRight.domain - ZOOM_AMT * dimensions.br.domain
                     range := viewport.bottomRight.range + ZOOM_AMT * dimensions.br.range } }

/-- Function `updateDrag()` (MCTPlot.js 133–149): offset between the drag
start and the current position, applied to both corners of the viewport. -/
def updateDrag (viewport : Viewport) (dragStart newPosition : Point) : Viewport :=
  let dDomain := dragStart.domain - newPosition.domain
  let dRange := dragStart.range - newPosition.range
  { topLeft := { domain := viewport.topLeft.domain + dDomain
                 range := viewport.topLeft.range + dRange }
    bottomRight := { domain := viewport.bottomRight.domain + dDomain
                     range := viewport.bottomRight.range + dRange } }

/-- Function `updatePan(touch, bounds)` (MCTPlot.js 335–352): offset between
the first touch and the current pan position, applied to both corners. -/
def updatePan (viewport : Viewport) (firstTouch newPanPosition : Point) : Viewport :=
  let dDomain := firstTouch.domain - newPanPosition.domain
  let dRange := firstTouch.range - newPanPosition.range
  { topLeft := { domain := viewport.topLeft.domain + dDomain
                 range := viewport.topLeft.range + dRange }
    bottomRight := { domain := viewport.bottomRight.domain + dDomain
                     range := viewport.bottomRight.range + dRange } }

/-- Domain-axis extent (width) of a viewport. -/
def domainExtent (v : Viewport) : ℚ := v.topLeft.domain - v.bottomRight.domain

/-- Range-axis extent (height) of a viewport. -/
def rangeExtent (v : Viewport) : ℚ := v.topLeft.range - v.bottomRight.range

/-- The `marqueeBox` gesture state (MCTPlot.js 45): the two opposite corners,
each absent outside of a gesture. The JavaScript field `end` is written
`end_` (Lean keyword). -/
structure MarqueeBox where
  start : Option Point
  end_ : Option Point
deriving DecidableEq, Repr

/-- Modelled from the spec: the composition of `utils.boxPointsFromOppositeCorners`
and `utils.oppositeCornersFromBoxPoints` that `endMarquee` applies (MCTPlot.js
111–112). The module `platform/features/plot-reborn/src/lib/utils.js` is not
among the source files; spec §4.3 and §8 fix its behaviour: re-derive the
corner order per axis, `topLeft` taking the larger coordinate on each axis
(domain descending, range descending). -/
def marqueeViewport (start end_ : Point) : Viewport :=
  { topLeft := { domain := max start.domain end_.domain
                 range := max start.range end_.range }
    bottomRight := { domain := min start.domain end_.domain
                     range := min start.range end_.range } }

/-- Function `endMarquee()` (MCTPlot.js 108–118) as a step on
`(marqueeBox, $scope.viewport)`, also returning the events it emits. The
source reads `marqueeBox.start` and `marqueeBox.end` with no guard; when
either corner is absent the corner property accesses inside the
(spec-modelled) `utils.boxPointsFromOppositeCorners` fail on the first
statement of `endMarquee` — before `marqueeBox` is cleared, anything is
emitted, or `$scope.viewport` is assigned — so the observable state is
unchanged and no event is emitted (spec §4.3: "Fails (no-op) if either
corner is absent"). With both corners present it clears the box, emits
`user:viewport:change:end` with the new viewport and installs it. -/
def endMarquee (marqueeBox : MarqueeBox) (viewport : Viewport) :
    MarqueeBox × Viewport × List PlotEvent :=
  match marqueeBox.start, marqueeBox.end_ with
  | some s, some e =>
      let newViewport := marqueeViewport s e
      (⟨none, none⟩, newViewport, [PlotEvent.viewportChangeEnd newViewport])
  | _, _ => (marqueeBox, viewport, [])

/-- Function `startDrag($event)` (MCTPlot.js 120–131) as a step on the
tracked `dragStart`, also returning the events it emits.
`$scope.mouseCoordinates` is modelled by its `positionAsPlotPoint` field
(the only one `startDrag` stores). The source emits
`user:viewport:change:start` on its first line, before the
`if (!$scope.mouseCoordinates) return;` guard, so the emission happens even
when no pointer position is tracked; `dragStart` is assigned only past the
guard. -/
def startDrag (mouseCoordinates : Option Point) (dragStart : Option Point) :
    Option Point × List PlotEvent :=
  match mouseCoordinates with
  | none => (dragStart, [PlotEvent.viewportChangeStart])
  | some p => (some p, [PlotEvent.viewportChangeStart])

/-- JavaScript `Math.round`, which rounds half up: `⌊x + 1/2⌋`. -/
def jsRound (x : ℚ) : ℤ := ⌊x + 1/2⌋

/-- Function `comparePinchDrag(distance, firstDistance, lastDistance)`
(MCTPlot.js 369–374). `onPinchChange` passes `Math.round(lastTouchDistance)`;
before the first pinch update `lastTouchDistance` is `undefined` and rounds
to `NaN`, whose comparisons are all false, modelled by an absent
`lastDistance`. -/
def comparePinchDrag (distance firstDistance : ℚ) (lastDistance : Option ℚ) :
    Bool :=
  (decide (firstDistance + PINCH_DRAG_AMT ≥ distance) &&
      decide (firstDistance - PINCH_DRAG_AMT ≤ distance)) ||
    (match lastDistance with
     | some l =>
         decide (l + PINCH_DRAG_AMT ≥ distance) &&
           decide (l - PINCH_DRAG_AMT ≤ distance)
     | none => false)

/-- The `distanceRatio` selection in `updateZoom` (MCTPlot.js 322):
`(lastTouchDistance / distance) || (firstTouchDistance / distance)`. With
`lastTouchDistance` undefined the first quotient is `NaN` (falsy) and the
fallback is taken; with it defined the fallback is taken exactly when the
quotient is `0`. (At `distance = 0` JavaScript would produce `±Infinity`,
which `ℚ` cannot represent — the inter-finger distance of a pinch is
positive, and the theorems below assume `0 < distance` where it matters.) -/
def distanceRatio (lastTouchDistance : Option ℚ) (firstTouchDistance distance : ℚ) :
    ℚ :=
  match lastTouchDistance with
  | none => firstTouchDistance / distance
  | some l =>
      if l / distance = 0 then firstTouchDistance / distance else l / distance

/-- Function `updateZoom(midpoint, bounds, distance)` (MCTPlot.js 318–326),
with the midpoint already converted to a plot point
(`trackTouchPosition(...).positionAsPlotPoint`). -/
def updateZoom (viewport : Viewport) (newMidpointPosition : Point)
    (firstTouchDistance : ℚ) (lastTouchDistance : Option ℚ) (distance : ℚ) :
    Viewport :=
  calculateViewport viewport newMidpointPosition
    (distanceRatio lastTouchDistance firstTouchDistance distance)

/-- What `onPinchChange` does with a pinch update: translate the viewport
(pan) or rescale it about the midpoint with the recorded ratio (zoom). -/
inductive PinchAction where
  | pan : PinchAction
  | zoom : ℚ → PinchAction
deriving DecidableEq, Repr

/-- Function `onPinchChange(event, touch)` (MCTPlot.js 376–387): classify
with `comparePinchDrag` on rounded distances, act (`updatePan` or
`updateZoom` — the zoom action records the `distanceRatio` that `updateZoom`
feeds to `calculateViewport`), then set `lastTouchDistance` to the current
distance. -/
def onPinchChange (firstTouchDistance : ℚ) (lastTouchDistance : Option ℚ)
    (distance : ℚ) : PinchAction × ℚ :=
  if comparePinchDrag ((jsRound distance : ℤ) : ℚ)
      ((jsRound firstTouchDistance : ℤ) : ℚ)
      (lastTouchDistance.map (fun l => ((jsRound l : ℤ) : ℚ))) then
    (PinchAction.pan, distance)
  else
    (PinchAction.zoom (distanceRatio lastTouchDistance firstTouchDistance distance),
      distance)

/-- The per-rule configuration of the summary widget (`Rule.js`): the `id`
field is the only one `Rule.prototype.remove` consults; the rest is opaque
payload. -/
structure RuleConfig where
  id : String
  payload : Nat
deriving DecidableEq, Repr

/-- The slice of the summary-widget domain object's `configuration` that
`Rule.prototype.remove` touches: `ruleOrder` and `ruleConfigById`. A key a
rule was never stored under, or was stored `undefined` under, maps to
`none`. -/
structure WidgetConfiguration where
  ruleOrder : List String
  ruleConfigById : String → Option RuleConfig

/-- A summary-widget `Rule` as far as `remove` is concerned: its local
`config` and the callbacks registered through `on('remove', ...)`, modelled
by identifiers (a JavaScript function is always truthy, so the
`if (callback)` test inside the `forEach` passes for every registered
callback). -/
structure Rule where
  config : RuleConfig
  removeCallbacks : List Nat
deriving DecidableEq, Repr

/-- Method `Rule.prototype.remove` (Rule.js 310–328): sets
`ruleConfigById[this.config.id] = undefined`, removes with lodash `_.remove`
every entry of `ruleOrder` equal to `this.config.id`, persists both through
`openmct.objects.mutate`, and invokes every registered remove callback. The
returned list records the invoked callbacks, in order. -/
def Rule.remove (r : Rule) (c : WidgetConfiguration) :
    WidgetConfiguration × List Nat :=
  let ruleConfigById := fun ruleId =>
    if ruleId = r.config.id then none else c.ruleConfigById ruleId
  let ruleOrder := c.ruleOrder.filter (fun ruleId => ruleId != r.config.id)
  ({ ruleOrder := ruleOrder, ruleConfigById := ruleConfigById },
    r.removeCallbacks)

/-- A value `x` lies strictly between `a` and `b`, in either order. -/
def strictlyBetween (x a b : ℚ) : Prop := (a < x ∧ x < b) ∨ (b < x ∧ x < a)

/-- What `calculateViewport` preserves for a midpoint strictly between the
corners on each axis (claim C9): every corner coordinate stays strictly on
its original side of the midpoint, betweenness, per-axis orientation and
nondegeneracy are preserved, and each of the four edge distances is scaled
by a factor `1 + ZOOM_AMT` or `1 - ZOOM_AMT`. -/
def zoomSideInvariant (v : Viewport) (m : Point) (ratio : ℚ) : Prop :=
  (v.topLeft.domain < m.domain ↔
    (calculateViewport v m ratio).topLeft.domain < m.domain) ∧
  (v.bottomRight.domain < m.domain ↔
    (calculateViewport v m ratio).bottomRight.domain < m.domain) ∧
  (v.topLeft.range < m.range ↔
    (calculateViewport v m ratio).topLeft.range < m.range) ∧
  (v.bottomRight.range < m.range ↔
    (calculateViewport v m ratio).bottomRight.range < m.range) ∧
  strictlyBetween m.domain (calculateViewport v m ratio).topLeft.domain
    (calculateViewport v m ratio).bottomRight.domain ∧
  strictlyBetween m.range (calculateViewport v m ratio).topLeft.range
    (calculateViewport v m ratio).bottomRight.range ∧
  (v.topLeft.domain < v.bottomRight.domain ↔
    (calculateViewport v m ratio).topLeft.domain <
      (calculateViewport v m ratio).bottomRight.domain) ∧
  (v.topLeft.range < v.bottomRight.range ↔
    (calculateViewport v m ratio).topLeft.range <
      (calculateViewport v m ratio).bottomRight.range) ∧
  (calculateViewport v m ratio).topLeft.domain ≠
    (calculateViewport v m ratio).bottomRight.domain ∧
  (calculateViewport v m ratio).topLeft.range ≠
    (calculateViewport v m ratio).bottomRight.range ∧
  ((setDimensions (calculateViewport v m ratio) m).tl.domain =
      (1 + ZOOM_AMT) * (setDimensions v m).tl.domain ∨
    (setDimensions (calculateViewport v m ratio) m).tl.domain =
      (1 - ZOOM_AMT) * (setDimensions v m).tl.domain) ∧
  ((setDimensions (calculateViewport v m ratio) m).tl.range =
      (1 + ZOOM_AMT) * (setDimensions v m).tl.range ∨
    (setDimensions (calculateViewport v m ratio) m).tl.range =
      (1 - ZOOM_AMT) * (setDimensions v m).tl.range) ∧
  ((setDimensions (calculateViewport v m ratio) m).br.domain =
      (1 + ZOOM_AMT) * (setDimensions v m).br.domain ∨
    (setDimensions (calculateViewport v m ratio) m).br.domain =
      (1 - ZOOM_AMT) * (setDimensions v m).br.domain) ∧
  ((setDimensions (calculateViewport v m ratio) m).br.range =
      (1 + ZOOM_AMT) * (setDimensions v m).br.range ∨
    (setDimensions (calculateViewport v m ratio) m).br.range =
      (1 - ZOOM_AMT) * (setDimensions v m).br.range)

/-- How the zoom direction actually behaves for a viewport in the source's
own axis orientation (domain ascending, range descending — MCTPlot.js line
65's tick comment): `ratio > 1` strictly grows all four edge distances to
the midpoint, `0 < ratio < 1` strictly shrinks them. This is the reverse of
claim C1's directions. -/
def zoomDirectionReversed (v : Viewport) (m : Point) (ratio : ℚ) : Prop :=
  (1 < ratio →
    (setDimensions v m).tl.domain <
        (setDimensions (calculateViewport v m ratio) m).tl.domain ∧
    (setDimensions v m).tl.range <
        (setDimensions (calculateViewport v m ratio) m).tl.range ∧
    (setDimensions v m).br.domain <
        (setDimensions (calculateViewport v m ratio) m).br.domain ∧
    (setDimensions v m).br.range <
        (setDimensions (calculateViewport v m ratio) m).br.range) ∧
  (0 < ratio → ratio < 1 →
    (setDimensions (calculateViewport v m ratio) m).tl.domain <
        (setDimensions v m).tl.domain ∧
    (setDimensions (calculateViewport v m ratio) m).tl.range <
        (setDimensions v m).tl.range ∧
    (setDimensions (calculateViewport v m ratio) m).br.domain <
        (setDimensions v m).br.domain ∧
    (setDimensions (calculateViewport v m ratio) m).br.range <
        (setDimensions v m).br.range)

/-- C2: the mouse pan (`updateDrag`) and the touch pan (`updatePan`) shift
both corners of the viewport by the same componentwise delta, start minus
current, so the domain extent and the range extent of the result equal those
of the input viewport exactly; moreover the two transforms agree. -/
theorem pan_preserves_extent (viewport : Viewport) (start current : Point) :
    domainExtent (updateDrag viewport start current) = domainExtent viewport ∧
    rangeExtent (updateDrag viewport start current) = rangeExtent viewport ∧
    domainExtent (updatePan viewport start current) = domainExtent viewport ∧
    rangeExtent (updatePan viewport start current) = rangeExtent viewport ∧
    (updateDrag viewport start current).topLeft.domain =
      viewport.topLeft.domain + (start.domain - current.domain) ∧
    (updateDrag viewport start current).topLeft.range =
      viewport.topLeft.range + (start.range - current.range) ∧
    (updateDrag viewport start current).bottomRight.domain =
      viewport.bottomRight.domain + (start.domain - current.domain) ∧
    (updateDrag viewport start current).bottomRight.range =
      viewport.bottomRight.range + (start.range - current.range) ∧
    updatePan viewport start current = updateDrag viewport start current := by
  refine ⟨?_, ?_, ?_, ?_, rfl, rfl, rfl, rfl, rfl⟩ <;>
    simp [updateDrag, updatePan, domainExtent, rangeExtent]

/-- C4: calling `endMarquee` while either marquee corner is absent leaves
the marquee box and the viewport unchanged and emits nothing — in
particular no `user:viewport:change:end` notification. -/
theorem endMarquee_missing_corner (box : MarqueeBox) (viewport : Viewport)
    (h : box.start = none ∨ box.end_ = none) :
    endMarquee box viewport = (box, viewport, []) := by
  obtain ⟨s, e⟩ := box
  rcases h with h | h <;> simp_all [endMarquee]

/-- Witness for C4 at a concrete input: a box with only `start` set. -/
theorem endMarquee_missing_corner_witness :
    ((MarqueeBox.mk (some ⟨1, 2⟩) none).start = none ∨
      (MarqueeBox.mk (some ⟨1, 2⟩) none).end_ = none) ∧
    endMarquee (MarqueeBox.mk (some ⟨1, 2⟩) none) ⟨⟨0, 10⟩, ⟨10, 0⟩⟩ =
      (MarqueeBox.mk (some ⟨1, 2⟩) none, ⟨⟨0, 10⟩, ⟨10, 0⟩⟩, []) :=
  ⟨Or.inr rfl,
    endMarquee_missing_corner (MarqueeBox.mk (some ⟨1, 2⟩) none)
      ⟨⟨0, 10⟩, ⟨10, 0⟩⟩ (Or.inr rfl)⟩

/-- C8: `endMarquee` re-derives the corner order per axis: from
`start = {domain: 10, range: 5}` and `end = {domain: 2, range: 9}` it
installs exactly `topLeft = {domain: 10, range: 9}`,
`bottomRight = {domain: 2, range: 5}`, emitting `user:viewport:change:end`
with that viewport and clearing the box, whatever the previous viewport. -/
theorem endMarquee_normalization (viewport : Viewport) :
    endMarquee ⟨some ⟨10, 5⟩, some ⟨2, 9⟩⟩ viewport =
      (⟨none, none⟩, ⟨⟨10, 9⟩, ⟨2, 5⟩⟩,
        [PlotEvent.viewportChangeEnd ⟨⟨10, 9⟩, ⟨2, 5⟩⟩]) := by
  simp only [endMarquee, marqueeViewport]
  norm_num

/-- C5 counterexample: a marquee whose two corners coincide is not rejected.
With `start = end = {domain: 3, range: 3}` over the viewport
`{topLeft: {0, 10}, bottomRight: {10, 0}}`, `endMarquee` installs the
degenerate viewport `{topLeft: {3, 3}, bottomRight: {3, 3}}` — a viewport
change — and emits `user:viewport:change:end`. -/
theorem endMarquee_degenerate_cex :
    (endMarquee ⟨some ⟨3, 3⟩, some ⟨3, 3⟩⟩ ⟨⟨0, 10⟩, ⟨10, 0⟩⟩).2.1 ≠
        (⟨⟨0, 10⟩, ⟨10, 0⟩⟩ : Viewport) ∧
    (endMarquee ⟨some ⟨3, 3⟩, some ⟨3, 3⟩⟩ ⟨⟨0, 10⟩, ⟨10, 0⟩⟩).2.1 =
        (⟨⟨3, 3⟩, ⟨3, 3⟩⟩ : Viewport) ∧
    (endMarquee ⟨some ⟨3, 3⟩, some ⟨3, 3⟩⟩ ⟨⟨0, 10⟩, ⟨10, 0⟩⟩).2.2 ≠
        ([] : List PlotEvent) := by
  refine ⟨?_, ?_, ?_⟩ <;> simp [endMarquee, marqueeViewport]

/-- C5 amended: `endMarquee` does not reject a degenerate marquee. With
`start = end = p` it installs the degenerate viewport
`{topLeft: p, bottomRight: p}`, clears the box and emits
`user:viewport:change:end` with that viewport, for every previous
viewport. -/
theorem endMarquee_degenerate (p : Point) (viewport : Viewport) :
    endMarquee ⟨some p, some p⟩ viewport =
      (⟨none, none⟩, ⟨p, p⟩, [PlotEvent.viewportChangeEnd ⟨p, p⟩]) := by
  simp [endMarquee, marqueeViewport]

/-- C6 counterexample: `startDrag` with no tracked pointer position is not
silent — it still emits `user:viewport:change:start` (the source emits on
its first line, before the `if (!$scope.mouseCoordinates) return;`
guard). -/
theorem startDrag_not_silent_cex :
    (startDrag none (none : Option Point)).2 ≠ ([] : List PlotEvent) ∧
    (startDrag none (none : Option Point)).2 = [PlotEvent.viewportChangeStart] := by
  refine ⟨?_, rfl⟩
  simp [startDrag]

/-- C6 amended: `startDrag` emits `user:viewport:change:start`
unconditionally, even when no pointer position is tracked; in that case it
records no drag start (`dragStart` is left as it was); only when a pointer
position is tracked does it record `dragStart = currentPoint`. -/
theorem startDrag_behavior (mouse dragStart : Option Point) (p : Point) :
    (startDrag mouse dragStart).2 = [PlotEvent.viewportChangeStart] ∧
    (startDrag none dragStart).1 = dragStart ∧
    (startDrag (some p) dragStart).1 = some p := by
  refine ⟨?_, rfl, rfl⟩
  cases mouse <;> rfl

/-- C10: after `Rule.prototype.remove`, `ruleOrder` contains no occurrence
of the removed rule's id, `ruleConfigById` maps that id to `undefined`,
every other id is mapped as before, and every registered remove callback is
invoked (in registration order). -/
theorem rule_remove_spec (r : Rule) (c : WidgetConfiguration) (otherId : String)
    (h : otherId ≠ r.config.id) :
    r.config.id ∉ (Rule.remove r c).1.ruleOrder ∧
    (Rule.remove r c).1.ruleConfigById r.config.id = none ∧
    (Rule.remove r c).1.ruleConfigById otherId = c.ruleConfigById otherId ∧
    (Rule.remove r c).2 = r.removeCallbacks := by
  refine ⟨?_, ?_, ?_, rfl⟩
  · simp [Rule.remove, List.mem_filter]
  · simp [Rule.remove]
  · simp [Rule.remove, h]

/-- Witness for C10: a widget holding rules "a", "b", "a" in order, removing
the rule with id "a" while "b" is the other id. -/
theorem rule_remove_spec_witness :
    "b" ≠ "a" ∧
    ("a" ∉ (Rule.remove ⟨⟨"a", 0⟩, [1, 2]⟩
        ⟨["a", "b", "a"], fun j => if j = "a" then some ⟨"a", 0⟩ else
          if j = "b" then some ⟨"b", 1⟩ else none⟩).1.ruleOrder ∧
      (Rule.remove ⟨⟨"a", 0⟩, [1, 2]⟩
        ⟨["a", "b", "a"], fun j => if j = "a" then some ⟨"a", 0⟩ else
          if j = "b" then some ⟨"b", 1⟩ else none⟩).1.ruleConfigById "a" = none ∧
      (Rule.remove ⟨⟨"a", 0⟩, [1, 2]⟩
        ⟨["a", "b", "a"], fun j => if j = "a" then some ⟨"a", 0⟩ else
          if j = "b" then some ⟨"b", 1⟩ else none⟩).1.ruleConfigById "b" =
        (fun j => if j = "a" then some (⟨"a", 0⟩ : RuleConfig) else
          if j = "b" then some ⟨"b", 1⟩ else none) "b" ∧
      (Rule.remove ⟨⟨"a", 0⟩, [1, 2]⟩
        ⟨["a", "b", "a"], fun j => if j = "a" then some ⟨"a", 0⟩ else
          if j = "b" then some ⟨"b", 1⟩ else none⟩).2 = [1, 2]) :=
  ⟨by decide,
    rule_remove_spec ⟨⟨"a", 0⟩, [1, 2]⟩
      ⟨["a", "b", "a"], fun j => if j = "a" then some ⟨"a", 0⟩ else
        if j = "b" then some ⟨"b", 1⟩ else none⟩ "b" (by decide)⟩

/-- C7: at `ratio = 1` the direction factor is `+1` (the `|| 1` fallback
after the `0 / Math.abs(0)` division), so `calculateViewport` produces
exactly the direction-`+1` shrink step — `ZOOM_AMT` times each edge
distance — and not the unchanged viewport (whenever the viewport is not
degenerate at the midpoint, here witnessed on the top-left domain edge). -/
theorem calculateViewport_ratio_one (v : Viewport) (m : Point)
    (h : v.topLeft.domain ≠ m.domain) :
    zoomType 1 = 1 ∧
    calculateViewport v m 1 = shrinkStep v m ∧
    calculateViewport v m 1 ≠ v := by
  have hz : zoomType 1 = 1 := by simp [zoomType]
  refine ⟨hz, ?_, ?_⟩
  · simp [calculateViewport, shrinkStep, hz]
  · intro heq
    have hd : (calculateViewport v m 1).topLeft.domain = v.topLeft.domain := by
      rw [heq]
    simp only [calculateViewport, setDimensions, hz, one_mul] at hd
    have habs : |m.domain - v.topLeft.domain| > 0 :=
      abs_pos.mpr (sub_ne_zero.mpr (Ne.symm h))
    have : ZOOM_AMT * |m.domain - v.topLeft.domain| > 0 :=
      mul_pos (by norm_num [ZOOM_AMT]) habs
    linarith

/-- Witness for C7: a concrete non-degenerate viewport and midpoint. -/
theorem calculateViewport_ratio_one_witness :
    (Viewport.mk ⟨0, 10⟩ ⟨10, 0⟩).topLeft.domain ≠ (Point.mk 5 5).domain ∧
    (zoomType 1 = 1 ∧
      calculateViewport ⟨⟨0, 10⟩, ⟨10, 0⟩⟩ ⟨5, 5⟩ 1 =
        shrinkStep ⟨⟨0, 10⟩, ⟨10, 0⟩⟩ ⟨5, 5⟩ ∧
      calculateViewport ⟨⟨0, 10⟩, ⟨10, 0⟩⟩ ⟨5, 5⟩ 1 ≠ ⟨⟨0, 10⟩, ⟨10, 0⟩⟩) :=
  ⟨by norm_num,
    calculateViewport_ratio_one ⟨⟨0, 10⟩, ⟨10, 0⟩⟩ ⟨5, 5⟩ (by norm_num)⟩


/-- Moving a coordinate `a < x` by `+ c` times its distance to `x` keeps it
strictly below `x` and scales the distance by `1 - c`. -/
theorem moveAddLt (a x c : ℚ) (hc : |c| < 1) (h : a < x) :
    a + c * |x - a| < x ∧ |x - (a + c * |x - a|)| = (1 - c) * |x - a| := by
  obtain ⟨hc2, hc1⟩ := abs_lt.mp hc
  have e1 : |x - a| = x - a := abs_of_pos (by linarith)
  rw [e1]
  have p1 : (0:ℚ) < (1 - c) * (x - a) := mul_pos (by linarith) (by linarith)
  have key : x - (a + c * (x - a)) = (1 - c) * (x - a) := by ring
  constructor
  · linarith [key, p1]
  · rw [key, abs_of_pos p1]

/-- Moving a coordinate `x < a` by `+ c` times its distance to `x` keeps it
strictly above `x` and scales the distance by `1 + c`. -/
theorem moveAddGt (a x c : ℚ) (hc : |c| < 1) (h : x < a) :
    x < a + c * |x - a| ∧ |x - (a + c * |x - a|)| = (1 + c) * |x - a| := by
  obtain ⟨hc2, hc1⟩ := abs_lt.mp hc
  have e1 : |x - a| = a - x := by
    rw [abs_sub_comm]; exact abs_of_pos (by linarith)
  rw [e1]
  have p1 : (0:ℚ) < (1 + c) * (a - x) := mul_pos (by linarith) (by linarith)
  have key : x - (a + c * (a - x)) = -((1 + c) * (a - x)) := by ring
  constructor
  · linarith [key, p1]
  · rw [key, abs_neg, abs_of_pos p1]

/-- Moving a coordinate `a < x` by `- c` times its distance to `x` keeps it
strictly below `x` and scales the distance by `1 + c`. -/
theorem moveSubLt (a x c : ℚ) (hc : |c| < 1) (h : a < x) :
    a - c * |x - a| < x ∧ |x - (a - c * |x - a|)| = (1 + c) * |x - a| := by
  obtain ⟨hc2, hc1⟩ := abs_lt.mp hc
  have e1 : |x - a| = x - a := abs_of_pos (by linarith)
  rw [e1]
  have p1 : (0:ℚ) < (1 + c) * (x - a) := mul_pos (by linarith) (by linarith)
  have key : x - (a - c * (x - a)) = (1 + c) * (x - a) := by ring
  constructor
  · linarith [key, p1]
  · rw [key, abs_of_pos p1]

/-- Moving a coordinate `x < a` by `- c` times its distance to `x` keeps it
strictly above `x` and scales the distance by `1 - c`. -/
theorem moveSubGt (a x c : ℚ) (hc : |c| < 1) (h : x < a) :
    x < a - c * |x - a| ∧ |x - (a - c * |x - a|)| = (1 - c) * |x - a| := by
  obtain ⟨hc2, hc1⟩ := abs_lt.mp hc
  have e1 : |x - a| = a - x := by
    rw [abs_sub_comm]; exact abs_of_pos (by linarith)
  rw [e1]
  have p1 : (0:ℚ) < (1 - c) * (a - x) := mul_pos (by linarith) (by linarith)
  have key : x - (a - c * (a - x)) = -((1 - c) * (a - x)) := by ring
  constructor
  · linarith [key, p1]
  · rw [key, abs_neg, abs_of_pos p1]

/-- The direction factor of `calculateViewport` only ever takes the values
`+1` (for `ratio ≤ 1`, the `ratio = 1` case through the `|| 1` fallback) and
`-1` (for `ratio > 1`). -/
theorem zoomType_cases (ratio : ℚ) :
    zoomType ratio = 1 ∨ zoomType ratio = -1 := by
  unfold zoomType
  rcases lt_trichotomy ratio 1 with h | h | h
  · left
    have hne : ratio - 1 ≠ 0 := by intro hx; linarith
    have habs : |ratio - 1| = -(ratio - 1) := abs_of_neg (by linarith)
    rw [if_neg hne, habs, div_neg, div_self hne]
    norm_num
  · left
    simp [h]
  · right
    have hne : ratio - 1 ≠ 0 := by intro hx; linarith
    have habs : |ratio - 1| = ratio - 1 := abs_of_pos (by linarith)
    rw [if_neg hne, habs, div_self hne]
    ring

/-- For `ratio > 1` the direction factor is `-1`. -/
theorem zoomType_of_gt {ratio : ℚ} (h : 1 < ratio) : zoomType ratio = -1 := by
  unfold zoomType
  have hne : ratio - 1 ≠ 0 := by intro hx; linarith
  have habs : |ratio - 1| = ratio - 1 := abs_of_pos (by linarith)
  rw [if_neg hne, habs, div_self hne]
  ring

/-- For `ratio < 1` the direction factor is `+1`. -/
theorem zoomType_of_lt {ratio : ℚ} (h : ratio < 1) : zoomType ratio = 1 := by
  unfold zoomType
  have hne : ratio - 1 ≠ 0 := by intro hx; linarith
  have habs : |ratio - 1| = -(ratio - 1) := abs_of_neg (by linarith)
  rw [if_neg hne, habs, div_neg, div_self hne]
  norm_num

/-- One axis of a `calculateViewport` step whose corner updates are
`a + c * |x - a|` and `b - c * |x - b|`: each corner stays strictly on its
original side of the midpoint coordinate `x`, betweenness, orientation and
nondegeneracy are preserved, and each corner's distance to `x` is scaled by
`1 + c` or `1 - c`. -/
theorem axisAdd (a b x c : ℚ) (hc : |c| < 1) (hab : strictlyBetween x a b) :
    (a < x ↔ a + c * |x - a| < x) ∧
    (b < x ↔ b - c * |x - b| < x) ∧
    strictlyBetween x (a + c * |x - a|) (b - c * |x - b|) ∧
    (a < b ↔ a + c * |x - a| < b - c * |x - b|) ∧
    a + c * |x - a| ≠ b - c * |x - b| ∧
    (|x - (a + c * |x - a|)| = (1 + c) * |x - a| ∨
      |x - (a + c * |x - a|)| = (1 - c) * |x - a|) ∧
    (|(b - c * |x - b|) - x| = (1 + c) * |x - b| ∨
      |(b - c * |x - b|) - x| = (1 - c) * |x - b|) := by
  rcases hab with ⟨h1, h2⟩ | ⟨h1, h2⟩
  · obtain ⟨hA, dA⟩ := moveAddLt a x c hc h1
    obtain ⟨hB, dB⟩ := moveSubGt b x c hc h2
    exact ⟨iff_of_true h1 hA,
      iff_of_false (not_lt.mpr h2.le) (not_lt.mpr hB.le),
      Or.inl ⟨hA, hB⟩,
      iff_of_true (h1.trans h2) (hA.trans hB),
      ne_of_lt (hA.trans hB),
      Or.inr dA, Or.inr (by rw [abs_sub_comm]; exact dB)⟩
  · obtain ⟨hA, dA⟩ := moveAddGt a x c hc h2
    obtain ⟨hB, dB⟩ := moveSubLt b x c hc h1
    exact ⟨iff_of_false (not_lt.mpr h2.le) (not_lt.mpr hA.le),
      iff_of_true h1 hB,
      Or.inr ⟨hB, hA⟩,
      iff_of_false (not_lt.mpr (h1.trans h2).le) (not_lt.mpr (hB.trans hA).le),
      (hB.trans hA).ne',
      Or.inl dA, Or.inl (by rw [abs_sub_comm]; exact dB)⟩

/-- One axis of a `calculateViewport` step whose corner updates are
`a - c * |x - a|` and `b + c * |x - b|` (the mirrored axis): the same
conclusions as `axisAdd`. -/
theorem axisSub (a b x c : ℚ) (hc : |c| < 1) (hab : strictlyBetween x a b) :
    (a < x ↔ a - c * |x - a| < x) ∧
    (b < x ↔ b + c * |x - b| < x) ∧
    strictlyBetween x (a - c * |x - a|) (b + c * |x - b|) ∧
    (a < b ↔ a - c * |x - a| < b + c * |x - b|) ∧
    a - c * |x - a| ≠ b + c * |x - b| ∧
    (|x - (a - c * |x - a|)| = (1 + c) * |x - a| ∨
      |x - (a - c * |x - a|)| = (1 - c) * |x - a|) ∧
    (|(b + c * |x - b|) - x| = (1 + c) * |x - b| ∨
      |(b + c * |x - b|) - x| = (1 - c) * |x - b|) := by
  rcases hab with ⟨h1, h2⟩ | ⟨h1, h2⟩
  · obtain ⟨hA, dA⟩ := moveSubLt a x c hc h1
    obtain ⟨hB, dB⟩ := moveAddGt b x c hc h2
    exact ⟨iff_of_true h1 hA,
      iff_of_false (not_lt.mpr h2.le) (not_lt.mpr hB.le),
      Or.inl ⟨hA, hB⟩,
      iff_of_true (h1.trans h2) (hA.trans hB),
      ne_of_lt (hA.trans hB),
      Or.inl dA, Or.inl (by rw [abs_sub_comm]; exact dB)⟩
  · obtain ⟨hA, dA⟩ := moveSubGt a x c hc h2
    obtain ⟨hB, dB⟩ := moveAddLt b x c hc h1
    exact ⟨iff_of_false (not_lt.mpr h2.le) (not_lt.mpr hA.le),
      iff_of_true h1 hB,
      Or.inr ⟨hB, hA⟩,
      iff_of_false (not_lt.mpr (h1.trans h2).le) (not_lt.mpr (hB.trans hA).le),
      (hB.trans hA).ne',
      Or.inr dA, Or.inr (by rw [abs_sub_comm]; exact dB)⟩

/-- The zoom step fraction is smaller than one in absolute value. -/
theorem zoomAmt_abs_lt_one : |ZOOM_AMT| < 1 := by
  rw [abs_of_pos (by norm_num [ZOOM_AMT])]
  norm_num [ZOOM_AMT]

/-- C9: for a midpoint strictly between the two corners on each axis,
`calculateViewport` (for any ratio) moves each corner coordinate by a factor
`1 + ZOOM_AMT` or `1 - ZOOM_AMT` of its edge distance to the midpoint, so
every corner coordinate stays strictly on its original side of the midpoint
and the viewport never collapses to zero extent or flips orientation on
either axis. -/
theorem calculateViewport_preserves_sides (v : Viewport) (m : Point) (ratio : ℚ)
    (hdom : strictlyBetween m.domain v.topLeft.domain v.bottomRight.domain)
    (hran : strictlyBetween m.range v.topLeft.range v.bottomRight.range) :
    zoomSideInvariant v m ratio := by
  rcases zoomType_cases ratio with ht | ht
  · simp only [zoomSideInvariant, calculateViewport, setDimensions, ht, one_mul]
    simp only [abs_sub_comm v.bottomRight.domain m.domain,
      abs_sub_comm v.bottomRight.range m.range]
    have hd := axisAdd v.topLeft.domain v.bottomRight.domain m.domain ZOOM_AMT
      zoomAmt_abs_lt_one hdom
    have hr := axisSub v.topLeft.range v.bottomRight.range m.range ZOOM_AMT
      zoomAmt_abs_lt_one hran
    exact ⟨hd.1, hd.2.1, hr.1, hr.2.1, hd.2.2.1, hr.2.2.1, hd.2.2.2.1,
      hr.2.2.2.1, hd.2.2.2.2.1, hr.2.2.2.2.1, hd.2.2.2.2.2.1,
      hr.2.2.2.2.2.1, hd.2.2.2.2.2.2, hr.2.2.2.2.2.2⟩
  · simp only [zoomSideInvariant, calculateViewport, setDimensions, ht,
      neg_one_mul, neg_mul, one_mul, ← sub_eq_add_neg, sub_neg_eq_add]
    simp only [abs_sub_comm v.bottomRight.domain m.domain,
      abs_sub_comm v.bottomRight.range m.range]
    have hd := axisSub v.topLeft.domain v.bottomRight.domain m.domain ZOOM_AMT
      zoomAmt_abs_lt_one hdom
    have hr := axisAdd v.topLeft.range v.bottomRight.range m.range ZOOM_AMT
      zoomAmt_abs_lt_one hran
    exact ⟨hd.1, hd.2.1, hr.1, hr.2.1, hd.2.2.1, hr.2.2.1, hd.2.2.2.1,
      hr.2.2.2.1, hd.2.2.2.2.1, hr.2.2.2.2.1, hd.2.2.2.2.2.1,
      hr.2.2.2.2.2.1, hd.2.2.2.2.2.2, hr.2.2.2.2.2.2⟩

/-- Witness for C9: the viewport `{topLeft: {0, 10}, bottomRight: {10, 0}}`
with midpoint `{5, 5}` and ratio `2`. -/
theorem calculateViewport_preserves_sides_witness :
    strictlyBetween (Point.mk 5 5).domain
        (Viewport.mk ⟨0, 10⟩ ⟨10, 0⟩).topLeft.domain
        (Viewport.mk ⟨0, 10⟩ ⟨10, 0⟩).bottomRight.domain ∧
    strictlyBetween (Point.mk 5 5).range
        (Viewport.mk ⟨0, 10⟩ ⟨10, 0⟩).topLeft.range
        (Viewport.mk ⟨0, 10⟩ ⟨10, 0⟩).bottomRight.range ∧
    zoomSideInvariant ⟨⟨0, 10⟩, ⟨10, 0⟩⟩ ⟨5, 5⟩ 2 :=
  ⟨by norm_num [strictlyBetween],
    by norm_num [strictlyBetween],
    calculateViewport_preserves_sides ⟨⟨0, 10⟩, ⟨10, 0⟩⟩ ⟨5, 5⟩ 2
      (by norm_num [strictlyBetween]) (by norm_num [strictlyBetween])⟩

/-- Distance scaling for a `b + c * |x - b|` corner above `x`, with the
absolute difference written corner-first as `setDimensions` writes it. -/
theorem movebrAddGt (b x c : ℚ) (hc : |c| < 1) (h : x < b) :
    |(b + c * |x - b|) - x| = (1 + c) * |x - b| := by
  rw [abs_sub_comm]
  exact (moveAddGt b x c hc h).2

/-- Distance scaling for a `b + c * |x - b|` corner below `x`, with the
absolute difference written corner-first. -/
theorem movebrAddLt (b x c : ℚ) (hc : |c| < 1) (h : b < x) :
    |(b + c * |x - b|) - x| = (1 - c) * |x - b| := by
  rw [abs_sub_comm]
  exact (moveAddLt b x c hc h).2

/-- Distance scaling for a `b - c * |x - b|` corner above `x`, with the
absolute difference written corner-first. -/
theorem movebrSubGt (b x c : ℚ) (hc : |c| < 1) (h : x < b) :
    |(b - c * |x - b|) - x| = (1 - c) * |x - b| := by
  rw [abs_sub_comm]
  exact (moveSubGt b x c hc h).2

/-- Distance scaling for a `b - c * |x - b|` corner below `x`, with the
absolute difference written corner-first. -/
theorem movebrSubLt (b x c : ℚ) (hc : |c| < 1) (h : b < x) :
    |(b - c * |x - b|) - x| = (1 + c) * |x - b| := by
  rw [abs_sub_comm]
  exact (moveSubLt b x c hc h).2

/-- C1 counterexample: over the viewport
`{topLeft: {0, 10}, bottomRight: {10, 0}}` — oriented as the source's own
tick-generation comment prescribes (domain ascending, range descending) —
with midpoint `{5, 5}` strictly inside it and `ratio = 2 > 1`, the top-left
domain edge distance to the midpoint grows from `5` to `51/10`: it does not
strictly decrease, so zoom with `ratio > 1` does not shrink all four edge
distances. -/
theorem calculateViewport_zoom_direction_cex :
    strictlyBetween (Point.mk 5 5).domain
        (Viewport.mk ⟨0, 10⟩ ⟨10, 0⟩).topLeft.domain
        (Viewport.mk ⟨0, 10⟩ ⟨10, 0⟩).bottomRight.domain ∧
    strictlyBetween (Point.mk 5 5).range
        (Viewport.mk ⟨0, 10⟩ ⟨10, 0⟩).topLeft.range
        (Viewport.mk ⟨0, 10⟩ ⟨10, 0⟩).bottomRight.range ∧
    (setDimensions (Viewport.mk ⟨0, 10⟩ ⟨10, 0⟩) ⟨5, 5⟩).tl.domain = 5 ∧
    (setDimensions (calculateViewport ⟨⟨0, 10⟩, ⟨10, 0⟩⟩ ⟨5, 5⟩ 2) ⟨5, 5⟩).tl.domain =
      51/10 ∧
    ¬ (setDimensions (calculateViewport ⟨⟨0, 10⟩, ⟨10, 0⟩⟩ ⟨5, 5⟩ 2) ⟨5, 5⟩).tl.domain <
        (setDimensions (Viewport.mk ⟨0, 10⟩ ⟨10, 0⟩) ⟨5, 5⟩).tl.domain := by
  refine ⟨by norm_num [strictlyBetween], by norm_num [strictlyBetween], ?_, ?_, ?_⟩ <;>
    norm_num [setDimensions, calculateViewport, zoomType, ZOOM_AMT, abs_of_nonneg]

/-- C1 amended: `calculateViewport` (the zoom computation `updateZoom` feeds)
reverses the claim's directions. For a viewport in the source's own axis
orientation (domain ascending, range descending) with the midpoint strictly
inside, `ratio > 1` (direction `-1`) strictly grows all four per-axis edge
distances from the midpoint, and `0 < ratio < 1` (direction `+1`) strictly
shrinks them; `updateZoom` is exactly `calculateViewport` applied to the
`distanceRatio` selection. -/
theorem calculateViewport_zoom_direction (v : Viewport) (m : Point) (ratio : ℚ)
    (ftd dist : ℚ) (ltd : Option ℚ)
    (hd1 : v.topLeft.domain < m.domain) (hd2 : m.domain < v.bottomRight.domain)
    (hr1 : v.bottomRight.range < m.range) (hr2 : m.range < v.topLeft.range) :
    updateZoom v m ftd ltd dist =
      calculateViewport v m (distanceRatio ltd ftd dist) ∧
    zoomDirectionReversed v m ratio := by
  have hz : (0:ℚ) < ZOOM_AMT := by norm_num [ZOOM_AMT]
  have hpd1 : (0:ℚ) < |m.domain - v.topLeft.domain| :=
    abs_pos.mpr (sub_ne_zero.mpr (ne_of_gt hd1))
  have hpd2 : (0:ℚ) < |m.domain - v.bottomRight.domain| :=
    abs_pos.mpr (sub_ne_zero.mpr (ne_of_lt hd2))
  have hpr1 : (0:ℚ) < |m.range - v.bottomRight.range| :=
    abs_pos.mpr (sub_ne_zero.mpr (ne_of_gt hr1))
  have hpr2 : (0:ℚ) < |m.range - v.topLeft.range| :=
    abs_pos.mpr (sub_ne_zero.mpr (ne_of_lt hr2))
  refine ⟨rfl, ?_, ?_⟩
  · intro h
    have ht := zoomType_of_gt h
    simp only [calculateViewport, setDimensions, ht, neg_one_mul, neg_mul,
      one_mul, ← sub_eq_add_neg, sub_neg_eq_add]
    simp only [abs_sub_comm v.bottomRight.domain m.domain,
      abs_sub_comm v.bottomRight.range m.range]
    refine ⟨?_, ?_, ?_, ?_⟩
    · rw [(moveSubLt v.topLeft.domain m.domain ZOOM_AMT zoomAmt_abs_lt_one hd1).2]
      nlinarith [hpd1, mul_pos hz hpd1]
    · rw [(moveAddGt v.topLeft.range m.range ZOOM_AMT zoomAmt_abs_lt_one hr2).2]
      nlinarith [hpr2, mul_pos hz hpr2]
    · rw [movebrAddGt v.bottomRight.domain m.domain ZOOM_AMT zoomAmt_abs_lt_one hd2]
      nlinarith [hpd2, mul_pos hz hpd2]
    · rw [movebrSubLt v.bottomRight.range m.range ZOOM_AMT zoomAmt_abs_lt_one hr1]
      nlinarith [hpr1, mul_pos hz hpr1]
  · intro h0 h1
    have ht := zoomType_of_lt h1
    simp only [calculateViewport, setDimensions, ht, one_mul]
    simp only [abs_sub_comm v.bottomRight.domain m.domain,
      abs_sub_comm v.bottomRight.range m.range]
    refine ⟨?_, ?_, ?_, ?_⟩
    · rw [(moveAddLt v.topLeft.domain m.domain ZOOM_AMT zoomAmt_abs_lt_one hd1).2]
      nlinarith [hpd1, mul_pos hz hpd1]
    · rw [(moveSubGt v.topLeft.range m.range ZOOM_AMT zoomAmt_abs_lt_one hr2).2]
      nlinarith [hpr2, mul_pos hz hpr2]
    · rw [movebrSubGt v.bottomRight.domain m.domain ZOOM_AMT zoomAmt_abs_lt_one hd2]
      nlinarith [hpd2, mul_pos hz hpd2]
    · rw [movebrAddLt v.bottomRight.range m.range ZOOM_AMT zoomAmt_abs_lt_one hr1]
      nlinarith [hpr1, mul_pos hz hpr1]

/-- Witness for C1 (amended) at the viewport
`{topLeft: {0, 10}, bottomRight: {10, 0}}`, midpoint `{5, 5}`, ratio `2`,
and the pinch distances `first = 100`, `last = 100`, `current = 120`. -/
theorem calculateViewport_zoom_direction_witness :
    ((Viewport.mk ⟨0, 10⟩ ⟨10, 0⟩).topLeft.domain < (Point.mk 5 5).domain ∧
      (Point.mk 5 5).domain < (Viewport.mk ⟨0, 10⟩ ⟨10, 0⟩).bottomRight.domain ∧
      (Viewport.mk ⟨0, 10⟩ ⟨10, 0⟩).bottomRight.range < (Point.mk 5 5).range ∧
      (Point.mk 5 5).range < (Viewport.mk ⟨0, 10⟩ ⟨10, 0⟩).topLeft.range) ∧
    (updateZoom ⟨⟨0, 10⟩, ⟨10, 0⟩⟩ ⟨5, 5⟩ 100 (some 100) 120 =
        calculateViewport ⟨⟨0, 10⟩, ⟨10, 0⟩⟩ ⟨5, 5⟩
          (distanceRatio (some 100) 100 120) ∧
      zoomDirectionReversed ⟨⟨0, 10⟩, ⟨10, 0⟩⟩ ⟨5, 5⟩ 2) :=
  ⟨⟨by norm_num, by norm_num, by norm_num, by norm_num⟩,
    calculateViewport_zoom_direction ⟨⟨0, 10⟩, ⟨10, 0⟩⟩ ⟨5, 5⟩ 2 100 120
      (some 100) (by norm_num) (by norm_num) (by norm_num) (by norm_num)⟩

/-- On integers (the values `Math.round` produces), `comparePinchDrag` holds
exactly when the current distance lies within `PINCH_DRAG_AMT = 2` of the
first distance or of the last distance. -/
theorem comparePinchDrag_int (d f l : ℤ) :
    (comparePinchDrag (d : ℚ) (f : ℚ) (some (l : ℚ)) = true) ↔
      (|d - f| ≤ 2 ∨ |d - l| ≤ 2) := by
  simp only [comparePinchDrag, PINCH_DRAG_AMT, Bool.or_eq_true, Bool.and_eq_true,
    decide_eq_true_eq]
  have e1 : ((f:ℚ) + 2 ≥ (d:ℚ)) ↔ d ≤ f + 2 := by exact_mod_cast Iff.rfl
  have e2 : ((f:ℚ) - 2 ≤ (d:ℚ)) ↔ f - 2 ≤ d := by exact_mod_cast Iff.rfl
  have e3 : ((l:ℚ) + 2 ≥ (d:ℚ)) ↔ d ≤ l + 2 := by exact_mod_cast Iff.rfl
  have e4 : ((l:ℚ) - 2 ≤ (d:ℚ)) ↔ l - 2 ≤ d := by exact_mod_cast Iff.rfl
  rw [e1, e2, e3, e4, abs_le, abs_le]
  omega

/-- C3: `onPinchChange` classifies a pinch update as pan exactly when the
rounded current distance lies within `PINCH_DRAG_AMT = 2` of the rounded
first distance or of the rounded previous distance, and otherwise as zoom
with ratio the previous distance divided by the current distance; in
particular with `firstTouchDistance = 100` and `lastTouchDistance = 100`, a
new distance of `101` classifies as pan and a new distance of `120`
classifies as zoom (with ratio `100 / 120`); the recorded last distance
becomes the current distance. -/
theorem onPinchChange_classification (f l dist : ℚ) (hd : 0 < dist) (hl : 0 < l) :
    ((onPinchChange f (some l) dist).1 = PinchAction.pan ↔
      (|jsRound dist - jsRound f| ≤ 2 ∨ |jsRound dist - jsRound l| ≤ 2)) ∧
    (¬ (|jsRound dist - jsRound f| ≤ 2 ∨ |jsRound dist - jsRound l| ≤ 2) →
      (onPinchChange f (some l) dist).1 = PinchAction.zoom (l / dist)) ∧
    (onPinchChange f (some l) dist).2 = dist ∧
    (onPinchChange 100 (some 100) 101).1 = PinchAction.pan ∧
    (onPinchChange 100 (some 100) 120).1 = PinchAction.zoom (100 / 120) := by
  have key : ∀ dd ff ll : ℚ,
      (comparePinchDrag ((jsRound dd : ℤ) : ℚ) ((jsRound ff : ℤ) : ℚ)
          (some ((jsRound ll : ℤ) : ℚ)) = true) ↔
        (|jsRound dd - jsRound ff| ≤ 2 ∨ |jsRound dd - jsRound ll| ≤ 2) :=
    fun dd ff ll => comparePinchDrag_int (jsRound dd) (jsRound ff) (jsRound ll)
  have hratio : l / dist ≠ 0 := div_ne_zero (ne_of_gt hl) (ne_of_gt hd)
  refine ⟨?_, ?_, ?_, ?_, ?_⟩
  · unfold onPinchChange
    simp only [Option.map_some']
    by_cases hcmp : comparePinchDrag ((jsRound dist : ℤ) : ℚ)
        ((jsRound f : ℤ) : ℚ) (some ((jsRound l : ℤ) : ℚ)) = true
    · rw [if_pos hcmp]
      exact iff_of_true rfl ((key dist f l).mp hcmp)
    · rw [if_neg hcmp]
      exact iff_of_false (by simp) (fun htol => hcmp ((key dist f l).mpr htol))
  · intro hnot
    have hcmp : ¬ comparePinchDrag ((jsRound dist : ℤ) : ℚ)
        ((jsRound f : ℤ) : ℚ) (some ((jsRound l : ℤ) : ℚ)) = true :=
      fun hc => hnot ((key dist f l).mp hc)
    unfold onPinchChange
    simp only [Option.map_some']
    rw [if_neg hcmp]
    simp [distanceRatio, hratio]
  · unfold onPinchChange
    split <;> rfl
  · have h101 : jsRound (101 : ℚ) = 101 := by norm_num [jsRound]
    have h100 : jsRound (100 : ℚ) = 100 := by norm_num [jsRound]
    unfold onPinchChange
    simp only [Option.map_some', h101, h100]
    rw [if_pos (((comparePinchDrag_int 101 100 100)).mpr (by norm_num))]
  · have h120 : jsRound (120 : ℚ) = 120 := by norm_num [jsRound]
    have h100 : jsRound (100 : ℚ) = 100 := by norm_num [jsRound]
    unfold onPinchChange
    simp only [Option.map_some', h120, h100]
    rw [if_neg (fun hc => by
      have := ((comparePinchDrag_int 120 100 100)).mp hc
      norm_num at this)]
    simp [distanceRatio]

/-- Witness for C3 at `firstTouchDistance = 100`, `lastTouchDistance = 100`,
`distance = 120`. -/
theorem onPinchChange_classification_witness :
    (0:ℚ) < 120 ∧ (0:ℚ) < 100 ∧
    (((onPinchChange 100 (some 100) 120).1 = PinchAction.pan ↔
        (|jsRound 120 - jsRound 100| ≤ 2 ∨ |jsRound 120 - jsRound 100| ≤ 2)) ∧
      (¬ (|jsRound 120 - jsRound 100| ≤ 2 ∨ |jsRound 120 - jsRound 100| ≤ 2) →
        (onPinchChange 100 (some 100) 120).1 = PinchAction.zoom (100 / 120)) ∧
      (onPinchChange 100 (some 100) 120).2 = 120 ∧
      (onPinchChange 100 (some 100) 101).1 = PinchAction.pan ∧
      (onPinchChange 100 (some 100) 120).1 = PinchAction.zoom (100 / 120)) :=
  ⟨by norm_num, by norm_num,
    onPinchChange_classification 100 100 120 (by norm_num) (by norm_num)⟩
